import Mathlib

/-!
Shallow embedding of the cogn8n OpenCog nodes.

Source files embedded here:
- packages/nodes-base/nodes/OpenCog/AtomSpace/AtomSpace.node.ts
  (methods addAtom, patternMatch, getTruthValue, setTruthValue)
- the ReasoningEngine node (methods performForwardChaining,
  performBackwardChaining, performTemporalReasoning, getReasoningParams)

The source methods are simulations: they draw from Math.random at each
call and keep no store between calls.  Every Math.random draw is modelled
by an explicit oracle stream rand : Nat -> Rat, indexed in the order the
source performs the draws.  JS numbers are modelled as Rat, loop counters
as Nat.  Node parameters that n8n supplies (atom name, pattern text,
knowledge text, maxSteps, ...) are plain arguments.
-/

/-- A probabilistic truth value, the pair of strength and confidence. -/
structure TruthValue where
  strength : ℚ
  confidence : ℚ
deriving DecidableEq

/-- The source default for an absent truthValue parameter:
strength 0.8, confidence 0.9. -/
def defaultTruthValue : TruthValue := ⟨4/5, 9/10⟩

/-- Result object of AtomSpace.addAtom. -/
structure AddAtomResult where
  operation : String
  atomId : String
  atomType : String
  atomName : String
  truthValue : TruthValue
  success : Bool
deriving DecidableEq

/-- Embeds AtomSpace.addAtom.  The source reads atomType, atomName and the
optional truthValue parameter, fabricates a fresh id from Date.now and
Math.random (modelled as the opaque argument atomId), and returns
success true.  It takes no outgoing list and performs no validation of
any kind: there is no arity check and no failure path. -/
def addAtom (atomId : String) (atomType : String) (atomName : String)
    (truthValueParam : Option TruthValue) : AddAtomResult :=
  { operation := "addAtom"
    atomId := atomId
    atomType := atomType
    atomName := atomName
    truthValue := truthValueParam.getD defaultTruthValue
    success := true }

/-- Result object of AtomSpace.getTruthValue. -/
structure GetTruthValueResult where
  operation : String
  atomName : String
  truthValue : TruthValue
  existsFlag : Bool
deriving DecidableEq

/-- Embeds AtomSpace.getTruthValue.  The source keeps no atom store: it
returns a fresh truth value made of two Math.random draws (oracle
indices 0 and 1) and the constant existsFlag true, whatever happened
before the call. -/
def getTruthValue (rand : ℕ → ℚ) (atomName : String) : GetTruthValueResult :=
  { operation := "getTruthValue"
    atomName := atomName
    truthValue := ⟨rand 0, rand 1⟩
    existsFlag := true }

/-- Result object of AtomSpace.setTruthValue. -/
structure SetTruthValueResult where
  operation : String
  atomName : String
  oldTruthValue : TruthValue
  newTruthValue : TruthValue
  success : Bool
deriving DecidableEq

/-- Embeds AtomSpace.setTruthValue.  The source stores nothing: it
fabricates a random old truth value (oracle indices 0 and 1), echoes the
new value in the result object, and returns success true.  No state is
written. -/
def setTruthValue (rand : ℕ → ℚ) (atomName : String)
    (truthValueParam : Option TruthValue) : SetTruthValueResult :=
  { operation := "setTruthValue"
    atomName := atomName
    oldTruthValue := ⟨rand 0, rand 1⟩
    newTruthValue := truthValueParam.getD defaultTruthValue
    success := true }

/-- Runs setTruthValue and then getTruthValue on the same atom name over
one shared oracle stream: the set call consumes draws 0 and 1, the get
call consumes draws 2 and 3.  Since the source keeps no store, no data
flows from the first call to the second; the pair of result objects is
the whole effect of the sequence. -/
def getAfterSetTruthValue (rand : ℕ → ℚ) (atomName : String) (t : TruthValue) :
    SetTruthValueResult × GetTruthValueResult :=
  (setTruthValue rand atomName (some t), getTruthValue (fun n => rand (n + 2)) atomName)

/-- The bindings object of one pattern match entry: the source always
binds exactly the two variables named by the dollar-X and dollar-Y keys. -/
structure PatternBindings where
  varX : String
  varY : String
deriving DecidableEq

/-- One element of the matches list returned by AtomSpace.patternMatch. -/
structure PatternMatchEntry where
  matchId : String
  bindings : PatternBindings
  truthValue : TruthValue
deriving DecidableEq

/-- Result object of AtomSpace.patternMatch.  The source field named
matches is called matchesList here because matches is a Lean token. -/
structure PatternMatchResult where
  operation : String
  pattern : String
  matchesList : List PatternMatchEntry
  matchCount : ℕ
deriving DecidableEq

/-- Entry built in iteration i of the patternMatch loop; the truth value
uses the two Math.random draws of that iteration (oracle indices 2i+1
and 2i+2, draw 0 having been spent on the match count). -/
def mkPatternMatchEntry (rand : ℕ → ℚ) (i : ℕ) : PatternMatchEntry :=
  { matchId := "match_" ++ toString i
    bindings := { varX := "Entity_" ++ toString i, varY := "Property_" ++ toString i }
    truthValue := ⟨rand (2 * i + 1), rand (2 * i + 2)⟩ }

/-- The fabricated match count of one patternMatch call: the source sets
numMatches = Math.min(maxResults, Math.floor(Math.random() * 5) + 1).
The floor value is clamped to Nat, which agrees with the JS loop running
zero times on a non-positive bound. -/
def pmNumMatches (rand : ℕ → ℚ) (maxResults : ℕ) : ℕ :=
  min maxResults ((⌊rand 0 * 5⌋ + 1).toNat)

/-- The fabricated matches list of one patternMatch call. -/
def pmEntries (rand : ℕ → ℚ) (maxResults : ℕ) : List PatternMatchEntry :=
  (List.range (pmNumMatches rand maxResults)).map (mkPatternMatchEntry rand)

/-- Embeds AtomSpace.patternMatch.  The pattern text is echoed but never
parsed or matched against anything. -/
def patternMatch (rand : ℕ → ℚ) (pattern : String) (maxResults : ℕ) : PatternMatchResult :=
  { operation := "patternMatch"
    pattern := pattern
    matchesList := pmEntries rand maxResults
    matchCount := (pmEntries rand maxResults).length }

/-- One element of the steps list of forward chaining. -/
structure FCStep where
  stepNumber : ℕ
  rule : String
  premise : String
  conclusion : String
  confidence : ℚ
deriving DecidableEq

/-- One element of the conclusions list of forward chaining. -/
structure FCConclusion where
  statement : String
  confidence : ℚ
  derivation : String
deriving DecidableEq

/-- Result object of ReasoningEngine.performForwardChaining. -/
structure FCResult where
  reasoningType : String
  inputKnowledge : String
  steps : List FCStep
  conclusions : List FCConclusion
  totalSteps : ℕ
  validConclusions : ℕ
deriving DecidableEq

/-- Step built in iteration i of the forward chaining loop: its
confidence is Math.max(confidenceThreshold, Math.random()), the draw of
iteration i being oracle index i. -/
def mkFCStep (confidenceThreshold : ℚ) (rand : ℕ → ℚ) (i : ℕ) : FCStep :=
  { stepNumber := i + 1
    rule := "Rule_" ++ toString (i + 1)
    premise := "Premise_" ++ toString (i + 1)
    conclusion := "Conclusion_" ++ toString (i + 1)
    confidence := max confidenceThreshold (rand i) }

/-- The steps list of forward chaining: the loop runs for
i = 0 .. Math.min(maxSteps, 5) - 1. -/
def fcSteps (rand : ℕ → ℚ) (maxSteps : ℕ) (confidenceThreshold : ℚ) : List FCStep :=
  (List.range (min maxSteps 5)).map (mkFCStep confidenceThreshold rand)

/-- The conclusions list of forward chaining: each loop iteration pushes
a conclusion exactly when the confidence of its step reaches the
threshold. -/
def fcConclusions (rand : ℕ → ℚ) (maxSteps : ℕ) (confidenceThreshold : ℚ) : List FCConclusion :=
  ((fcSteps rand maxSteps confidenceThreshold).filter
      (fun s => decide (confidenceThreshold ≤ s.confidence))).map
    (fun s =>
      { statement := s.conclusion
        confidence := s.confidence
        derivation := "Derived from " ++ s.premise ++ " using " ++ s.rule })

/-- Embeds ReasoningEngine.performForwardChaining. -/
def performForwardChaining (rand : ℕ → ℚ) (inputKnowledge : String)
    (maxSteps : ℕ) (confidenceThreshold : ℚ) : FCResult :=
  { reasoningType := "forwardChaining"
    inputKnowledge := inputKnowledge
    steps := fcSteps rand maxSteps confidenceThreshold
    conclusions := fcConclusions rand maxSteps confidenceThreshold
    totalSteps := (fcSteps rand maxSteps confidenceThreshold).length
    validConclusions := (fcConclusions rand maxSteps confidenceThreshold).length }

/-- One element of the subgoals list of backward chaining. -/
structure BCSubgoal where
  goal : String
  status : String
  confidence : ℚ
deriving DecidableEq

/-- One element of the proofSteps list of backward chaining. -/
structure BCProofStep where
  step : ℕ
  goal : String
  proof : String
  confidence : ℚ
deriving DecidableEq

/-- Result object of ReasoningEngine.performBackwardChaining. -/
structure BCResult where
  reasoningType : String
  inputKnowledge : String
  goalQuery : String
  subgoals : List BCSubgoal
  proofSteps : List BCProofStep
  goalProven : Bool
  overallConfidence : ℚ
deriving DecidableEq

/-- Subgoal built in iteration i of the backward chaining loop.  The
source draws twice per iteration: the status draw
(Math.random() > 0.3, oracle index 2i) and the confidence draw
(oracle index 2i+1). -/
def mkBCSubgoal (rand : ℕ → ℚ) (i : ℕ) : BCSubgoal :=
  { goal := "Subgoal_" ++ toString (i + 1)
    status := if 3/10 < rand (2 * i) then "proven" else "unproven"
    confidence := rand (2 * i + 1) }

/-- The subgoals list: the loop runs for
i = 0 .. Math.min(maxSteps, 3) - 1. -/
def bcSubgoals (rand : ℕ → ℚ) (maxSteps : ℕ) : List BCSubgoal :=
  (List.range (min maxSteps 3)).map (mkBCSubgoal rand)

/-- The proofSteps list: each iteration whose subgoal is proven pushes
one proof step carrying that subgoal and the 1-based loop index. -/
def bcProofSteps (rand : ℕ → ℚ) (maxSteps : ℕ) : List BCProofStep :=
  (List.range (min maxSteps 3)).filterMap (fun i =>
    let s := mkBCSubgoal rand i
    if s.status == "proven" then
      some { step := i + 1, goal := s.goal, proof := "Proven by rule application",
             confidence := s.confidence }
    else none)

/-- The confidences of the subgoals whose status is proven, in list
order; the source obtains them by filtering the subgoals list. -/
def provenConfidences (subgoals : List BCSubgoal) : List ℚ :=
  (subgoals.filter (fun s => s.status == "proven")).map (fun s => s.confidence)

/-- The overallConfidence of backward chaining: the source reduces the
filtered subgoal list with Math.min starting from accumulator 1, which
is the left fold of min over the proven confidences with initial
value 1. -/
def bcOverallConfidence (rand : ℕ → ℚ) (maxSteps : ℕ) : ℚ :=
  (provenConfidences (bcSubgoals rand maxSteps)).foldl min 1

/-- Embeds ReasoningEngine.performBackwardChaining.  goalProven is the
comparison overallConfidence >= confidenceThreshold. -/
def performBackwardChaining (rand : ℕ → ℚ) (inputKnowledge : String) (goalQuery : String)
    (maxSteps : ℕ) (confidenceThreshold : ℚ) : BCResult :=
  { reasoningType := "backwardChaining"
    inputKnowledge := inputKnowledge
    goalQuery := goalQuery
    subgoals := bcSubgoals rand maxSteps
    proofSteps := bcProofSteps rand maxSteps
    goalProven := decide (confidenceThreshold ≤ bcOverallConfidence rand maxSteps)
    overallConfidence := bcOverallConfidence rand maxSteps }

/-- One element of the temporalFacts list; the source formats timestamps
as ISO strings from millisecond arithmetic on Date.now, modelled here
directly as the millisecond value. -/
structure TemporalFact where
  fact : String
  timestampMs : ℤ
  duration : String
deriving DecidableEq

/-- One element of the temporalRelations list.  The source field named
type is called relType here because type is a Lean keyword. -/
structure TemporalRelation where
  event1 : String
  event2 : String
  relation : String
  confidence : ℚ
  relType : String
deriving DecidableEq

/-- One element of the predictions list of temporal reasoning. -/
structure TemporalPrediction where
  event : String
  predictedTimeMs : ℤ
  confidence : ℚ
deriving DecidableEq

/-- The consistencyCheck object of temporal reasoning. -/
structure ConsistencyCheck where
  isConsistent : Bool
  violations : List String
  warnings : List String
deriving DecidableEq

/-- Result object of ReasoningEngine.performTemporalReasoning. -/
structure TemporalResult where
  reasoningType : String
  inputKnowledge : String
  timeWindow : String
  temporalFacts : List TemporalFact
  temporalRelations : List TemporalRelation
  predictions : List TemporalPrediction
  consistencyCheck : ConsistencyCheck
deriving DecidableEq

/-- Embeds ReasoningEngine.performTemporalReasoning.  Every part of the
result is fabricated: two hardcoded facts around Date.now (the nowMs
argument), one hardcoded before relation, one prediction whose
confidence is the second Math.random draw (oracle index 1), and a
consistencyCheck whose isConsistent flag is the first Math.random draw
compared against 0.2 (oracle index 0), with empty violations and
warnings.  The inputKnowledge and timeWindow strings are echoed but
never read. -/
def performTemporalReasoning (rand : ℕ → ℚ) (nowMs : ℤ)
    (inputKnowledge : String) (timeWindow : String) : TemporalResult :=
  { reasoningType := "temporalReasoning"
    inputKnowledge := inputKnowledge
    timeWindow := timeWindow
    temporalFacts := [⟨"Event_A occurred", nowMs - 3600000, "30 minutes"⟩,
                      ⟨"Event_B occurred", nowMs, "ongoing"⟩]
    temporalRelations := [⟨"Event_A", "Event_B", "before", 95/100, "temporal_precedence"⟩]
    predictions := [⟨"Future_Event_C", nowMs + 3600000, rand 1⟩]
    consistencyCheck := ⟨decide (1/5 < rand 0), [], []⟩ }

/-- The reasoningParams collection as the caller supplied it: each field
may be absent (none). -/
structure RawReasoningParams where
  maxSteps : Option ℚ
  confidenceThreshold : Option ℚ
  maxResults : Option ℚ
  useUncertainty : Option Bool
deriving DecidableEq

/-- JS disjunction x || d on an optional numeric field: an absent field
and the number 0 are falsy, every other number is kept. -/
def jsNumOrDefault (x : Option ℚ) (d : ℚ) : ℚ :=
  match x with
  | none => d
  | some v => if v = 0 then d else v

/-- Parameter record returned by getReasoningParams. -/
structure ReasoningParams where
  maxSteps : ℚ
  confidenceThreshold : ℚ
  maxResults : ℚ
  useUncertainty : Bool
deriving DecidableEq

/-- Embeds ReasoningEngine.getReasoningParams: JS || with defaults 10,
0.7 and 10 on the three numeric fields, and useUncertainty !== false on
the flag. -/
def getReasoningParams (p : RawReasoningParams) : ReasoningParams :=
  { maxSteps := jsNumOrDefault p.maxSteps 10
    confidenceThreshold := jsNumOrDefault p.confidenceThreshold (7/10)
    maxResults := jsNumOrDefault p.maxResults 10
    useUncertainty := p.useUncertainty != some false }

/-- Claim C1, counterexample.  The claim says getTruthValue after
setTruthValue returns exactly the truth value that was set.  On the
concrete run with atom name Human, truth value (1/2, 1/2) and every
Math.random draw equal to 1/4, the get call returns the fabricated value
(1/4, 1/4), not the value that was set: the source keeps no store, so
the set call has no effect on later reads. -/
theorem getAfterSet_returns_random_not_t :
    (getAfterSetTruthValue (fun _ => 1/4) "Human" ⟨1/2, 1/2⟩).2.truthValue = ⟨1/4, 1/4⟩ ∧
    (getAfterSetTruthValue (fun _ => 1/4) "Human" ⟨1/2, 1/2⟩).2.truthValue ≠ ⟨1/2, 1/2⟩ := by
  refine ⟨rfl, fun h => ?_⟩
  have hs : (1/4 : ℚ) = 1/2 := congrArg TruthValue.strength h
  norm_num at hs

/-- Claim C2, counterexample.  The claim says addAtom fails with
InvalidArity on an arity mismatch; the source addAtom has no failure
path at all: it accepts no outgoing list, checks nothing, and returns
success true for every input, in particular for the arity-2 kind
InheritanceLink. -/
theorem addAtom_always_succeeds :
    (∀ (atomId atomType atomName : String) (tv : Option TruthValue),
        (addAtom atomId atomType atomName tv).success = true) ∧
    (addAtom "atom_1" "InheritanceLink" "Human" (some ⟨19/20, 9/10⟩)).success = true :=
  ⟨fun _ _ _ _ => rfl, rfl⟩

/-- Claim C5: for every oracle, pattern and non-negative maxResults, the
matches list returned by patternMatch has at most maxResults elements,
because the source caps the fabricated match count at
Math.min(maxResults, ...). -/
theorem patternMatch_at_most_maxResults
    (rand : ℕ → ℚ) (pattern : String) (maxResults : ℕ) :
    (patternMatch rand pattern maxResults).matchesList.length ≤ maxResults := by
  simp only [patternMatch, pmEntries, pmNumMatches, List.length_map, List.length_range]
  exact Nat.min_le_left _ _

/-- Claim C6, counterexample.  The claim says patternMatch is
deterministic for a fixed store state, pattern and maxResults.  With the
same pattern and maxResults 5 but different Math.random draws (all 0
versus all 9/10), the source returns 1 fabricated match in the first run
and 5 in the second, so two invocations disagree. -/
theorem patternMatch_not_deterministic :
    (patternMatch (fun _ => 0)
        "(InheritanceLink (VariableNode \"$X\") (ConceptNode \"Animal\"))" 5).matchCount = 1 ∧
    (patternMatch (fun _ => 9/10)
        "(InheritanceLink (VariableNode \"$X\") (ConceptNode \"Animal\"))" 5).matchCount = 5 ∧
    patternMatch (fun _ => 0)
        "(InheritanceLink (VariableNode \"$X\") (ConceptNode \"Animal\"))" 5 ≠
      patternMatch (fun _ => 9/10)
        "(InheritanceLink (VariableNode \"$X\") (ConceptNode \"Animal\"))" 5 := by
  have hA : (patternMatch (fun _ => 0)
      "(InheritanceLink (VariableNode \"$X\") (ConceptNode \"Animal\"))" 5).matchCount = 1 := by
    simp only [patternMatch, pmEntries, pmNumMatches, List.length_map, List.length_range]
    norm_num
  have hB : (patternMatch (fun _ => 9/10)
      "(InheritanceLink (VariableNode \"$X\") (ConceptNode \"Animal\"))" 5).matchCount = 5 := by
    simp only [patternMatch, pmEntries, pmNumMatches, List.length_map, List.length_range]
    norm_num
  refine ⟨hA, hB, fun h => ?_⟩
  rw [congrArg PatternMatchResult.matchCount h, hB] at hA
  exact absurd hA (by norm_num)

/-- Claim C7, counterexample.  The claim says isConsistent is false
whenever the input asserts two mutually exclusive relations between the
same atom pair.  The source computes isConsistent as
Math.random() > 0.2 and never reads the input: on a run whose input text
asserts both before and after between Event_A and Event_B, with the
first draw equal to 1/2, isConsistent is true; moreover the whole
consistencyCheck object is the same for every input text. -/
theorem temporalReasoning_ignores_input_contradictions :
    ((performTemporalReasoning (fun _ => 1/2) 0
        "Event_A before Event_B. Event_A after Event_B." "24 hours").consistencyCheck.isConsistent
      = true) ∧
    (∀ (rand : ℕ → ℚ) (nowMs : ℤ) (ik1 ik2 tw : String),
        (performTemporalReasoning rand nowMs ik1 tw).consistencyCheck
          = (performTemporalReasoning rand nowMs ik2 tw).consistencyCheck) := by
  refine ⟨?_, fun _ _ _ _ _ => rfl⟩
  show decide ((1/5 : ℚ) < 1/2) = true
  norm_num

/-- Helper for claim C8: the JS disjunction with a nonzero default never
yields 0. -/
theorem jsNumOrDefault_ne_zero (x : Option ℚ) (d : ℚ) (hd : d ≠ 0) :
    jsNumOrDefault x d ≠ 0 := by
  cases x with
  | none => exact hd
  | some v =>
    by_cases hv : v = 0
    · simpa [jsNumOrDefault, hv] using hd
    · simp [jsNumOrDefault, hv]

/-- Claim C8: getReasoningParams replaces an explicitly supplied 0 for
maxSteps, confidenceThreshold or maxResults with the defaults 10, 7/10
and 10 (JS || treats 0 as falsy), and for every input the three numeric
parameters it returns are nonzero. -/
theorem getReasoningParams_zero_becomes_default :
    (getReasoningParams ⟨some 0, some 0, some 0, none⟩).maxSteps = 10 ∧
    (getReasoningParams ⟨some 0, some 0, some 0, none⟩).confidenceThreshold = 7/10 ∧
    (getReasoningParams ⟨some 0, some 0, some 0, none⟩).maxResults = 10 ∧
    (∀ p : RawReasoningParams,
        (getReasoningParams p).maxSteps ≠ 0 ∧
        (getReasoningParams p).confidenceThreshold ≠ 0 ∧
        (getReasoningParams p).maxResults ≠ 0) := by
  refine ⟨rfl, rfl, rfl, fun p => ?_⟩
  refine ⟨?_, ?_, ?_⟩
  · exact jsNumOrDefault_ne_zero p.maxSteps 10 (by norm_num)
  · exact jsNumOrDefault_ne_zero p.confidenceThreshold (7/10) (by norm_num)
  · exact jsNumOrDefault_ne_zero p.maxResults 10 (by norm_num)

/-- Claim C3: every conclusion in the conclusions list of forward
chaining has confidence at least confidenceThreshold, for every oracle,
knowledge text and parameter set.  The source both fabricates each step
confidence as Math.max(confidenceThreshold, Math.random()) and filters
the pushed conclusions by the threshold. -/
theorem forwardChaining_conclusions_meet_threshold
    (rand : ℕ → ℚ) (inputKnowledge : String) (maxSteps : ℕ) (confidenceThreshold : ℚ)
    (c : FCConclusion)
    (hc : c ∈ (performForwardChaining rand inputKnowledge maxSteps confidenceThreshold).conclusions) :
    confidenceThreshold ≤ c.confidence := by
  have hc2 : c ∈ fcConclusions rand maxSteps confidenceThreshold := hc
  simp only [fcConclusions, List.mem_map, List.mem_filter] at hc2
  obtain ⟨s, ⟨_, hpred⟩, rfl⟩ := hc2
  exact of_decide_eq_true hpred

/-- Witness for claim C3: a concrete run with a single step whose draw
is 9/10 against threshold 7/10 yields exactly one conclusion, and the
theorem applies to it. -/
theorem forwardChaining_conclusions_meet_threshold_witness :
    (7/10 : ℚ) ≤
      (FCConclusion.mk "Conclusion_1" (9/10) "Derived from Premise_1 using Rule_1").confidence :=
  forwardChaining_conclusions_meet_threshold (fun _ => 9/10) "kb" 1 (7/10)
    (FCConclusion.mk "Conclusion_1" (9/10) "Derived from Premise_1 using Rule_1")
    (by
      have hs0 : mkFCStep (7/10) (fun _ => 9/10) 0 ∈ fcSteps (fun _ => 9/10) 1 (7/10) := by
        simp only [fcSteps, List.mem_map, List.mem_range]
        exact ⟨0, by omega, rfl⟩
      have hp : decide ((7/10 : ℚ) ≤ (mkFCStep (7/10) (fun _ => 9/10) 0).confidence) = true :=
        decide_eq_true (le_max_left _ _)
      show FCConclusion.mk "Conclusion_1" (9/10) "Derived from Premise_1 using Rule_1"
          ∈ fcConclusions (fun _ => 9/10) 1 (7/10)
      simp only [fcConclusions]
      refine List.mem_map.mpr
        ⟨mkFCStep (7/10) (fun _ => 9/10) 0, List.mem_filter.mpr ⟨hs0, hp⟩, ?_⟩
      have hconf : (mkFCStep (7/10) (fun _ => 9/10) 0).confidence = 9/10 := by
        show max (7/10 : ℚ) (9/10) = 9/10
        norm_num
      rw [show (mkFCStep (7/10) (fun _ => 9/10) 0).conclusion = "Conclusion_1" from rfl, hconf,
        show "Derived from " ++ (mkFCStep (7/10) (fun _ => 9/10) 0).premise ++ " using "
            ++ (mkFCStep (7/10) (fun _ => 9/10) 0).rule
          = "Derived from Premise_1 using Rule_1" from rfl])

/-- Claim C10: the forward chaining loop runs exactly
min(maxSteps, 5) times, so the steps list and the conclusions list never
hold more than 5 entries, however large maxSteps is. -/
theorem forwardChaining_at_most_five_steps
    (rand : ℕ → ℚ) (inputKnowledge : String) (maxSteps : ℕ) (confidenceThreshold : ℚ) :
    (performForwardChaining rand inputKnowledge maxSteps confidenceThreshold).steps.length
        = min maxSteps 5 ∧
    (performForwardChaining rand inputKnowledge maxSteps confidenceThreshold).steps.length ≤ 5 ∧
    (performForwardChaining rand inputKnowledge maxSteps confidenceThreshold).conclusions.length
        ≤ 5 := by
  have hsteps : (performForwardChaining rand inputKnowledge maxSteps
      confidenceThreshold).steps.length = min maxSteps 5 := by
    simp only [performForwardChaining, fcSteps, List.length_map, List.length_range]
  have hconc : (performForwardChaining rand inputKnowledge maxSteps
      confidenceThreshold).conclusions.length
      ≤ (performForwardChaining rand inputKnowledge maxSteps confidenceThreshold).steps.length := by
    simp only [performForwardChaining, fcConclusions, List.length_map]
    exact List.length_filter_le _ _
  refine ⟨hsteps, ?_, ?_⟩
  · rw [hsteps]; exact Nat.min_le_right _ _
  · exact le_trans hconc (by rw [hsteps]; exact Nat.min_le_right _ _)

/-- Helper: a left fold of min lands in the initial value or the list. -/
theorem foldl_min_mem_cons : ∀ (l : List ℚ) (a : ℚ), l.foldl min a ∈ a :: l := by
  intro l
  induction l with
  | nil => intro a; simp
  | cons b t ih =>
    intro a
    rw [List.foldl_cons]
    have h := ih (min a b)
    rcases List.mem_cons.mp h with h1 | h1
    · rw [h1]
      rcases min_choice a b with hab | hab
      · rw [hab]; exact List.mem_cons_self a (b :: t)
      · rw [hab]; exact List.mem_cons_of_mem a (List.mem_cons_self b t)
    · exact List.mem_cons_of_mem a (List.mem_cons_of_mem b h1)

/-- Helper: a left fold of min is a lower bound of the initial value and
every list element. -/
theorem foldl_min_le_mem : ∀ (l : List ℚ) (a x : ℚ), x ∈ a :: l → l.foldl min a ≤ x := by
  intro l
  induction l with
  | nil =>
    intro a x hx
    rw [List.mem_singleton] at hx
    rw [hx]
    exact le_refl a
  | cons b t ih =>
    intro a x hx
    rw [List.foldl_cons]
    rcases List.mem_cons.mp hx with h1 | h1
    · rw [h1]
      exact le_trans (ih (min a b) (min a b) (List.mem_cons_self _ _)) (min_le_left a b)
    · rcases List.mem_cons.mp h1 with h2 | h2
      · rw [h2]
        exact le_trans (ih (min a b) (min a b) (List.mem_cons_self _ _)) (min_le_right a b)
      · exact ih (min a b) x (List.mem_cons_of_mem _ h2)

/-- Helper: on a nonempty list of values at most 1, the left fold of min
with initial value 1 is the minimum of the list: it is an element of the
list and a lower bound of it. -/
theorem foldl_min_one_is_min (l : List ℚ) (hub : ∀ x ∈ l, x ≤ 1) (hne : l ≠ []) :
    l.foldl min 1 ∈ l ∧ ∀ x ∈ l, l.foldl min 1 ≤ x := by
  have hle : ∀ x ∈ l, l.foldl min 1 ≤ x :=
    fun x hx => foldl_min_le_mem l 1 x (List.mem_cons_of_mem 1 hx)
  refine ⟨?_, hle⟩
  rcases List.mem_cons.mp (foldl_min_mem_cons l 1) with h1 | h1
  · obtain ⟨y, t, rfl⟩ : ∃ y t, l = y :: t := by
      cases l with
      | nil => exact absurd rfl hne
      | cons y t => exact ⟨y, t, rfl⟩
    have hy := hle y (List.mem_cons_self y t)
    have hy1 := hub y (List.mem_cons_self y t)
    have hyeq : y = 1 := le_antisymm hy1 (h1 ▸ hy)
    rw [h1, ← hyeq]
    exact List.mem_cons_self y t
  · exact h1

/-- Helper: every proven confidence of a backward chaining run is a
Math.random draw, so it is at most 1 whenever the oracle is bounded
by 1. -/
theorem provenConfidences_le_one (rand : ℕ → ℚ) (hub : ∀ n, rand n ≤ 1) (maxSteps : ℕ) :
    ∀ x ∈ provenConfidences (bcSubgoals rand maxSteps), x ≤ 1 := by
  intro x hx
  simp only [provenConfidences, bcSubgoals, List.mem_map, List.mem_filter] at hx
  obtain ⟨s, ⟨hs, _⟩, rfl⟩ := hx
  obtain ⟨i, _, rfl⟩ := hs
  exact hub (2 * i + 1)

/-- Claim C4: whenever the oracle draws stay at most 1 (as Math.random
draws do) and at least one subgoal is proven, overallConfidence is the
minimum confidence among the proven subgoals (it is one of them and a
lower bound of them), and goalProven holds exactly when
overallConfidence reaches confidenceThreshold. -/
theorem backwardChaining_overall_is_min_of_proven
    (rand : ℕ → ℚ) (inputKnowledge goalQuery : String) (maxSteps : ℕ) (confidenceThreshold : ℚ)
    (hub : ∀ n, rand n ≤ 1)
    (hne : provenConfidences
        (performBackwardChaining rand inputKnowledge goalQuery maxSteps
          confidenceThreshold).subgoals ≠ []) :
    ((performBackwardChaining rand inputKnowledge goalQuery maxSteps
          confidenceThreshold).overallConfidence
        ∈ provenConfidences (performBackwardChaining rand inputKnowledge goalQuery maxSteps
          confidenceThreshold).subgoals ∧
      ∀ x ∈ provenConfidences (performBackwardChaining rand inputKnowledge goalQuery maxSteps
          confidenceThreshold).subgoals,
        (performBackwardChaining rand inputKnowledge goalQuery maxSteps
          confidenceThreshold).overallConfidence ≤ x) ∧
    ((performBackwardChaining rand inputKnowledge goalQuery maxSteps
          confidenceThreshold).goalProven = true ↔
      confidenceThreshold ≤ (performBackwardChaining rand inputKnowledge goalQuery maxSteps
          confidenceThreshold).overallConfidence) := by
  have hsub : (performBackwardChaining rand inputKnowledge goalQuery maxSteps
      confidenceThreshold).subgoals = bcSubgoals rand maxSteps := rfl
  have hoc : (performBackwardChaining rand inputKnowledge goalQuery maxSteps
      confidenceThreshold).overallConfidence
      = (provenConfidences (bcSubgoals rand maxSteps)).foldl min 1 := rfl
  have hne2 : provenConfidences (bcSubgoals rand maxSteps) ≠ [] := by
    rw [hsub] at hne; exact hne
  have hmin := foldl_min_one_is_min (provenConfidences (bcSubgoals rand maxSteps))
    (provenConfidences_le_one rand hub maxSteps) hne2
  refine ⟨⟨?_, ?_⟩, ?_⟩
  · rw [hsub, hoc]; exact hmin.1
  · rw [hsub]; intro x hx; rw [hoc]; exact hmin.2 x hx
  · have hgp : (performBackwardChaining rand inputKnowledge goalQuery maxSteps
        confidenceThreshold).goalProven
        = decide (confidenceThreshold ≤ (performBackwardChaining rand inputKnowledge goalQuery
            maxSteps confidenceThreshold).overallConfidence) := rfl
    rw [hgp]
    exact decide_eq_true_iff

/-- Oracle for the claim C4 witness: the status draw (index 0) is 1/2,
so the single subgoal is proven, and its confidence draw (index 1)
is 2/5. -/
def bcWitnessRand : ℕ → ℚ := fun n => if n = 0 then 1/2 else 2/5

/-- Helper for the claim C4 witness: on the concrete one-step run the
proven confidences are exactly the single draw 2/5. -/
theorem bcWitness_provenConfidences :
    provenConfidences (bcSubgoals bcWitnessRand 1) = [(2/5 : ℚ)] := by
  have hstat : (mkBCSubgoal bcWitnessRand 0).status = "proven" := by
    show (if (3/10 : ℚ) < bcWitnessRand 0 then "proven" else "unproven") = "proven"
    rw [if_pos]
    show (3/10 : ℚ) < 1/2
    norm_num
  have hconf : (mkBCSubgoal bcWitnessRand 0).confidence = 2/5 := rfl
  have h1 : bcSubgoals bcWitnessRand 1 = [mkBCSubgoal bcWitnessRand 0] := rfl
  rw [h1]
  simp only [provenConfidences, List.filter, hstat, List.map]
  rw [hconf]

/-- Witness for claim C4: the concrete one-step run with status draw 1/2
and confidence draw 2/5 has the proven subgoal list nonempty, and the
theorem applies: overallConfidence is the minimum proven confidence and
goalProven mirrors the threshold comparison. -/
theorem backwardChaining_overall_is_min_of_proven_witness :
    ((performBackwardChaining bcWitnessRand "kb" "goal" 1 (7/10)).overallConfidence
        ∈ provenConfidences (performBackwardChaining bcWitnessRand "kb" "goal" 1
          (7/10)).subgoals ∧
      ∀ x ∈ provenConfidences (performBackwardChaining bcWitnessRand "kb" "goal" 1
          (7/10)).subgoals,
        (performBackwardChaining bcWitnessRand "kb" "goal" 1 (7/10)).overallConfidence ≤ x) ∧
    ((performBackwardChaining bcWitnessRand "kb" "goal" 1 (7/10)).goalProven = true ↔
      (7/10 : ℚ) ≤ (performBackwardChaining bcWitnessRand "kb" "goal" 1
        (7/10)).overallConfidence) :=
  backwardChaining_overall_is_min_of_proven bcWitnessRand "kb" "goal" 1 (7/10)
    (by
      intro n
      show (if n = 0 then (1/2 : ℚ) else 2/5) ≤ 1
      split <;> norm_num)
    (by
      show provenConfidences (bcSubgoals bcWitnessRand 1) ≠ []
      rw [bcWitness_provenConfidences]
      exact List.cons_ne_nil _ _)

/-- Claim C9: when no subgoal is proven, the fold over the empty proven
list leaves its initial accumulator, so overallConfidence is 1 and the
goal is reported proven for every threshold at most 1. -/
theorem backwardChaining_no_proven_defaults_to_one
    (rand : ℕ → ℚ) (inputKnowledge goalQuery : String) (maxSteps : ℕ) (confidenceThreshold : ℚ)
    (h : provenConfidences (performBackwardChaining rand inputKnowledge goalQuery maxSteps
        confidenceThreshold).subgoals = []) :
    (performBackwardChaining rand inputKnowledge goalQuery maxSteps
        confidenceThreshold).overallConfidence = 1 ∧
    (confidenceThreshold ≤ 1 →
      (performBackwardChaining rand inputKnowledge goalQuery maxSteps
        confidenceThreshold).goalProven = true) := by
  have hsub : (performBackwardChaining rand inputKnowledge goalQuery maxSteps
      confidenceThreshold).subgoals = bcSubgoals rand maxSteps := rfl
  have hoc : (performBackwardChaining rand inputKnowledge goalQuery maxSteps
      confidenceThreshold).overallConfidence
      = (provenConfidences (bcSubgoals rand maxSteps)).foldl min 1 := rfl
  rw [hsub] at h
  have h1 : (performBackwardChaining rand inputKnowledge goalQuery maxSteps
      confidenceThreshold).overallConfidence = 1 := by
    rw [hoc, h]
    rfl
  refine ⟨h1, fun ht => ?_⟩
  have hgp : (performBackwardChaining rand inputKnowledge goalQuery maxSteps
      confidenceThreshold).goalProven
      = decide (confidenceThreshold ≤ (performBackwardChaining rand inputKnowledge goalQuery
          maxSteps confidenceThreshold).overallConfidence) := rfl
  rw [hgp, h1]
  exact decide_eq_true ht

/-- Oracle for the claim C9 witness: every draw is 1/10, so every status
draw fails the 0.3 bar and every subgoal is unproven. -/
def bcEmptyRand : ℕ → ℚ := fun _ => 1/10

/-- Witness for claim C9: on the concrete run where the single subgoal
is unproven, the theorem applies: overallConfidence is 1 and the goal
counts as proven at threshold 7/10. -/
theorem backwardChaining_no_proven_defaults_to_one_witness :
    (performBackwardChaining bcEmptyRand "kb" "goal" 1 (7/10)).overallConfidence = 1 ∧
    ((7/10 : ℚ) ≤ 1 →
      (performBackwardChaining bcEmptyRand "kb" "goal" 1 (7/10)).goalProven = true) :=
  backwardChaining_no_proven_defaults_to_one bcEmptyRand "kb" "goal" 1 (7/10)
    (by
      have hstat : (mkBCSubgoal bcEmptyRand 0).status = "unproven" := by
        show (if (3/10 : ℚ) < bcEmptyRand 0 then "proven" else "unproven") = "unproven"
        rw [if_neg]
        show ¬(3/10 : ℚ) < 1/10
        norm_num
      have h1 : bcSubgoals bcEmptyRand 1 = [mkBCSubgoal bcEmptyRand 0] := rfl
      show provenConfidences (bcSubgoals bcEmptyRand 1) = []
      rw [h1]
      simp [provenConfidences, hstat])
